import Mathlib

/-!
Verification of the kubricate-website maintenance scripts.

Two scripts are modelled:

* the markdown header refiner (the script defining `processTarget`,
  `updateMarkdownHeaders`, `generateMockSidebarJson`, `parseArguments` and
  `main`), and
* the repository setup script (`docs/v1/scripts/setup-repo.ts` with
  `cloneRepo`, `installDependencies` and `buildProject`).

File contents and paths are modelled as `List Char` (JS strings are sequences
of code units; for the characters appearing here `List Char` is an exact
model).  Filesystem and subprocess activity is modelled as explicit effect
traces; `path.resolve` (which only makes a path absolute relative to the
process working directory) is dropped, so all paths stay in their relative
form.  Console logging is not modelled.
-/

namespace KubricateDocs

/-! ## JavaScript string primitives

Shallow embeddings of the exact JS semantics the scripts rely on: the
whitespace character class, multiline start-of-line anchoring, trim,
includes, and replace with a regex of the shape
`^#\s+<escaped name>\s*` (flag `m`, no `g`), including dollar-pattern
expansion in the replacement string. -/

/-- Membership in the JS `\s` character class:
tab, LF, VT, FF, CR, space, NBSP, and the Unicode space separators,
line and paragraph separators, and BOM. -/
def jsWhitespace (c : Char) : Bool :=
  (9 ≤ c.toNat && c.toNat ≤ 13) || c.toNat = 32 || c.toNat = 0xa0 || c.toNat = 0x1680 ||
  (0x2000 ≤ c.toNat && c.toNat ≤ 0x200a) || c.toNat = 0x2028 || c.toNat = 0x2029 ||
  c.toNat = 0x202f || c.toNat = 0x205f || c.toNat = 0x3000 || c.toNat = 0xfeff

/-- JS line terminators, after which a multiline start-of-line anchor
matches. -/
def jsLineTerminator (c : Char) : Bool :=
  c.toNat = 10 || c.toNat = 13 || c.toNat = 0x2028 || c.toNat = 0x2029

/-- Embedding of JS `trim`: strip `\s` characters from both ends. -/
def jsTrim (l : List Char) : List Char :=
  ((l.dropWhile jsWhitespace).reverse.dropWhile jsWhitespace).reverse

/-- Embedding of JS `includes`: `sub` occurs contiguously in the second
argument. -/
def listIncludes (sub : List Char) : List Char → Bool
  | [] => sub.isEmpty
  | c :: cs => sub.isPrefixOf (c :: cs) || listIncludes sub cs

/-- Length of the maximal run of `\s` characters at the head of `l`. -/
def wsRun (l : List Char) : Nat := (l.takeWhile jsWhitespace).length

/-- Greedy-with-backtracking search for `\s+` followed by the literal `name`:
try consuming `k` whitespace characters for `k` from the maximal run down to
one; return the first (largest) `k` at which `name` matches.  This is exactly
the order a JS regex engine tries a greedy `\s+` before a literal. -/
def findBacktrack (name rest : List Char) : Nat → Option Nat
  | 0 => none
  | k + 1 =>
    if name.isPrefixOf (rest.drop (k + 1)) then some (k + 1)
    else findBacktrack name rest k

/-- Attempt to match `#\s+<name>\s*` at the head of `l`; returns the length of
the matched region.  The final greedy `\s*` has nothing after it, so it always
consumes the maximal whitespace run. -/
def matchAt (name : List Char) : List Char → Option Nat
  | [] => none
  | c :: rest =>
    if c = '#' then
      match findBacktrack name rest (wsRun rest) with
      | none => none
      | some k => some (1 + k + name.length + wsRun ((rest.drop k).drop name.length))
    else none

/-- Scan left to right for the first line-start position at which
`#\s+<name>\s*` matches (the multiline anchor matches at position 0 and
right after every line terminator); returns the match position and length. -/
def scanAux (name : List Char) : List Char → Bool → Nat → Option (Nat × Nat)
  | [], _, _ => none
  | c :: cs, lineStart, pos =>
    if lineStart then
      match matchAt name (c :: cs) with
      | some len => some (pos, len)
      | none => scanAux name cs (jsLineTerminator c) (pos + 1)
    else scanAux name cs (jsLineTerminator c) (pos + 1)

/-- First match of the regex built by
`new RegExp("^#\\s+" + escapeRegExp(name) + "\\s*", "m")`
in `content`.  `escapeRegExp` makes `name` a literal, which is exactly how
the matcher treats it. -/
def findMatch (name content : List Char) : Option (Nat × Nat) :=
  scanAux name content true 0

/-- JS replacement-string expansion: the patterns dollar-dollar,
dollar-ampersand, dollar-backtick and dollar-apostrophe (the regex used by
the script has no capture groups, so a dollar followed by a digit stays
literal, as in JS; so does a trailing lone dollar). -/
def expandRepl (matched before after : List Char) : List Char → List Char
  | [] => []
  | c :: rest =>
    if c = '$' then
      match rest with
      | [] => ['$']
      | d :: rest' =>
        if d = '$' then '$' :: expandRepl matched before after rest'
        else if d = '&' then matched ++ expandRepl matched before after rest'
        else if d = Char.ofNat 96 then before ++ expandRepl matched before after rest'
        else if d = Char.ofNat 39 then after ++ expandRepl matched before after rest'
        else '$' :: d :: expandRepl matched before after rest'
    else c :: expandRepl matched before after rest

/-- Embedding of JS `content.replace(regex, repl)` for the non-global
anchored regex above: replace the first match (if any) by the expanded
replacement string. -/
def jsReplace (name repl content : List Char) : List Char :=
  match findMatch name content with
  | none => content
  | some (pos, len) =>
    content.take pos ++
      expandRepl ((content.drop pos).take len) (content.take pos)
        (content.drop (pos + len)) repl ++
      content.drop (pos + len)

/-- Embedding of `path.dirname` on a relative POSIX path: everything before
the last slash, or `.` when there is no slash. -/
def dirname (p : List Char) : List Char :=
  match p.reverse.dropWhile (fun c => c != '/') with
  | [] => ".".data
  | _ :: rest => rest.reverse

/-! ## Markdown header refiner (`processTarget`, `updateMarkdownHeaders`,
`generateMockSidebarJson`, `parseArguments`, `main`) -/

def GENERATED_MARKER : String := "<!-- @generated -->"

def TYPEDOC_SITEBAR_JSON : String := "typedoc-sidebar.json"

/-- One entry of the static `packageInfo` list (name and description; the
`packageDir` field only feeds the manifest lookup and is not needed by the
modelled operations). -/
structure PackageDecl where
  name : String
  description : String
deriving DecidableEq

/-- The static, hard-coded package list of the refiner script. -/
def packageInfo : List PackageDecl :=
  [⟨"kubricate", "CLI for configuration and manifest generation"⟩,
   ⟨"core", "Core framework for creating and managing stacks"⟩,
   ⟨"plugin-env", "Secret connector for `.env` and environment variables"⟩,
   ⟨"plugin-kubernetes", "Kubernetes connectors"⟩,
   ⟨"stacks", "Official reusable stack definitions"⟩,
   ⟨"toolkit", "Utility functions for custom stack authors"⟩]

/-- A package after `getPackageInfo` has read its manifest: the static name
and description together with the `name` and `version` fields of the
`package.json` of the package. -/
structure ResolvedPackage where
  name : String
  description : String
  fullName : String
  version : String
deriving DecidableEq

/-- The manifest data `getPackageInfo` reads from the `package.json` of a
package. -/
structure Manifest where
  name : String
  version : String
deriving DecidableEq

/-- Embedding of `getPackageInfo`: augment a static entry with the `name`
and `version` fields of its manifest. -/
def getPackageInfo (p : PackageDecl) (m : Manifest) : ResolvedPackage :=
  ⟨p.name, p.description, m.name, m.version⟩

/-- The `target` field `processTarget` attaches to a package. -/
structure Target where
  path : List Char
  content : List Char
deriving DecidableEq

/-- Embedding of `processTarget`: build the header block
`GENERATED_MARKER`, blank line, `linkLine`, blank line, `newHeader`,
`description` (which itself carries a leading blank line), trailing blank
line — with `linkLine` being `[All Packages](../index.md) / ` followed by
the project name and `newHeader` being `# `, the project name and
` Documentation` — targeted at the directory `api/` plus the short package
name. -/
def processTarget (name fullName description : String) : Target :=
  { path := ("api/" ++ name).data,
    content :=
      (GENERATED_MARKER ++ "\n\n" ++
       ("[All Packages](../index.md) / " ++ fullName) ++ "\n\n" ++
       ("# " ++ fullName ++ " Documentation") ++
       ("\n\n" ++ description) ++ "\n\n").data }

def resolveTarget (p : ResolvedPackage) : Target :=
  processTarget p.name p.fullName p.description

/-- One filesystem side effect of the refiner. -/
inductive FsEffect where
  | mkdirRecursive (dir : List Char)
  | writeFile (path : List Char) (content : List Char)
  | removeDirRecursive (dir : List Char)
deriving DecidableEq

/-- The index file path: `path.join` of the target path and `index.md`. -/
def indexFilePath (t : Target) : List Char := t.path ++ "/index.md".data

/-- The happy-path body of `updateMarkdownHeaders`, as the list of filesystem
effects it performs, given the current state of the index file (`none` when
`checkFileExists` is false):

* file absent: `mkdir -p` its directory and write the header block;
* file contains the generated marker and the trimmed header block: skip;
* otherwise: write back the result of replacing the first match of
  `^#\s+<escaped fullName>\s*` (multiline) with the trimmed header block. -/
def updateMarkdownHeaders (fullName : List Char) (t : Target)
    (file : Option (List Char)) : List FsEffect :=
  match file with
  | none =>
    [.mkdirRecursive (dirname (indexFilePath t)),
     .writeFile (indexFilePath t) t.content]
  | some content =>
    if listIncludes GENERATED_MARKER.data content &&
        listIncludes (jsTrim t.content) content then
      []
    else
      [.writeFile (indexFilePath t)
        (jsReplace fullName (jsTrim t.content) content)]

/-- The state of the index file after `updateMarkdownHeaders` ran on it. -/
def fileAfterUpdate (fullName : List Char) (t : Target)
    (file : Option (List Char)) : Option (List Char) :=
  match file with
  | none => some t.content
  | some content =>
    if listIncludes GENERATED_MARKER.data content &&
        listIncludes (jsTrim t.content) content then
      some content
    else
      some (jsReplace fullName (jsTrim t.content) content)

/-- The possible outcomes of the filesystem interaction inside the `try`
block of `updateMarkdownHeaders`: either it observes a file state, or some
`fs` call throws with message `msg`. -/
inductive FsOutcome where
  | ok (file : Option (List Char))
  | err (msg : String)
deriving DecidableEq

/-- Embedding of `updateMarkdownHeaders` with its `try` and `catch`: an error
from any `fs` call inside the block is rethrown as
`Failed to process <filepath>: <err>`. -/
def updateMarkdownHeadersE (fullName : List Char) (t : Target)
    (fo : FsOutcome) : Except String (List FsEffect) :=
  match fo with
  | .err m =>
    .error ("Failed to process " ++ String.mk (indexFilePath t) ++ ": " ++ m)
  | .ok file => .ok (updateMarkdownHeaders fullName t file)

/-- The sidebar file path: `path.join` of the target path and
`TYPEDOC_SITEBAR_JSON`. -/
def sidebarFilePath (t : Target) : List Char :=
  t.path ++ ("/" ++ TYPEDOC_SITEBAR_JSON).data

/-- Result of `JSON.stringify` on the single-entry mock sidebar array. -/
def mockSideBarJson (t : Target) : List Char :=
  "[\x7b\"text\":\"Home\",\"link\":\"".data ++ t.path ++
    "/\",\"collapsed\":false\x7d]".data

/-- Embedding of `generateMockSidebarJson`: `mkdir -p` the target directory
and write the mock sidebar JSON. -/
def generateMockSidebarJson (t : Target) : List FsEffect :=
  [.mkdirRecursive (dirname (sidebarFilePath t)),
   .writeFile (sidebarFilePath t) (mockSideBarJson t)]

/-- The `--mock` and `--clean` flags recognised by `parseArguments`. -/
structure Options where
  mock : Bool
  clean : Bool
deriving DecidableEq

/-- Embedding of `parseArguments`: drop the two leading `argv` entries and
set each flag that occurs among the rest. -/
def parseArguments (argv : List String) : Options :=
  (argv.drop 2).foldl
    (fun o arg =>
      let o' := if arg = "--mock" then { o with mock := true } else o
      if arg = "--clean" then { o' with clean := true } else o')
    { mock := false, clean := false }

/-- The sequential per-package loop of `main` over the non-clean, non-mock
path, threading the per-package filesystem outcome through
`updateMarkdownHeadersE`; returns the per-package effects in order together
with the error (if any) that aborted the loop.  Packages after a failing one
are not reached. -/
def runBatch (fsys : ResolvedPackage → FsOutcome) :
    List ResolvedPackage → List (String × List FsEffect) × Option String
  | [] => ([], none)
  | p :: ps =>
    match updateMarkdownHeadersE p.fullName.data (resolveTarget p) (fsys p) with
    | .error e => ([], some e)
    | .ok effs =>
      let r := runBatch fsys ps
      ((p.name, effs) :: r.1, r.2)

/-- The effect trace of `main` (after the manifests were resolved): on
`--clean`, recursively remove the `api/<name>` directory of each package and
return; otherwise, per package, optionally emit the mock sidebar and then run
the header update. -/
def mainRun (opts : Options) (resolved : List ResolvedPackage)
    (fsys : ResolvedPackage → Option (List Char)) : List FsEffect :=
  if opts.clean then
    resolved.map (fun p => FsEffect.removeDirRecursive (resolveTarget p).path)
  else
    resolved.flatMap (fun p =>
      (if opts.mock then generateMockSidebarJson (resolveTarget p) else []) ++
      updateMarkdownHeaders p.fullName.data (resolveTarget p) (fsys p))

/-! ### Concrete instances used by witnesses -/

/-- The `core` package resolved against the manifest of the scenario in the
specification. -/
def corePkg : ResolvedPackage :=
  ⟨"core", "Core framework for creating and managing stacks",
   "@kubricate/core", "1.2.0"⟩

def coreTarget : Target := resolveTarget corePkg

/-- The `kubricate` package resolved against a plausible manifest. -/
def kubricatePkg : ResolvedPackage :=
  ⟨"kubricate", "CLI for configuration and manifest generation",
   "kubricate", "1.2.0"⟩

/-- The `stacks` package resolved against a plausible manifest. -/
def stacksPkg : ResolvedPackage :=
  ⟨"stacks", "Official reusable stack definitions",
   "@kubricate/stacks", "1.2.0"⟩

/-- A filesystem in which every access for the `kubricate` package throws
and every other package has no index file. -/
def failingFsys : ResolvedPackage → FsOutcome :=
  fun p => if p.name = "kubricate" then .err "EACCES: permission denied" else .ok none

/-- A filesystem with no index files at all. -/
def noFiles : ResolvedPackage → Option (List Char) := fun _ => none

/-- An argv carrying both the `--clean` and the `--mock` flag. -/
def cleanArgv : List String :=
  ["node", "scripts/refine-markdown.ts", "--clean", "--mock"]

end KubricateDocs

namespace SetupRepo

/-! ## Repository setup script (`setup-repo.ts`) -/

/-- The `CloneOptions` interface of `setup-repo.ts`. -/
structure CloneOptions where
  repoUrl : String
  branch : String
  targetDir : Option String
  force : Bool
deriving DecidableEq

/-- Embedding of `repoUrl.split` on slash followed by `pop`: the part after
the last slash (the whole string when there is no slash; `split` never
yields an empty array, so the `?? "repo"` fallback in the source is
unreachable). -/
def lastComponentAfterSlash (l : List Char) : List Char :=
  (l.reverse.takeWhile (fun c => c != '/')).reverse

/-- Embedding of `.replace(/\.git$/, "")`: strip one trailing `.git`. -/
def stripDotGit (l : List Char) : List Char :=
  if ".git".data.isSuffixOf l then l.take (l.length - 4) else l

def repoNameOf (repoUrl : String) : List Char :=
  stripDotGit (lastComponentAfterSlash repoUrl.data)

/-- Embedding of `const dir = targetDir || repoName` (JS logical-or: the
empty string is falsy). -/
def resolvedDir (o : CloneOptions) : String :=
  match o.targetDir with
  | some t => if t.data.isEmpty then String.mk (repoNameOf o.repoUrl) else t
  | none => String.mk (repoNameOf o.repoUrl)

/-- One observable action of the setup script. -/
inductive SetupAction where
  | removeDirRecursive (dir : String)
  | execGitClone (args : List String)
  | execPnpm (args : List String) (cwd : String)
deriving DecidableEq

/-- How a step of the script ends: normally, or via `process.exit(code)`. -/
inductive StepResult where
  | ok
  | processExit (code : Nat)
deriving DecidableEq

/-- The argument vector passed to `execa` for git. -/
def cloneArgs (branch repoUrl dir : String) : List String :=
  ["clone", "--branch", branch, "--single-branch", repoUrl, dir]

/-- Outcome of `cloneRepo`: whether the target directory exists afterwards,
the actions performed, and how the step ended. -/
structure CloneOutcome where
  dirExists : Bool
  trace : List SetupAction
  result : StepResult
deriving DecidableEq

/-- Embedding of `cloneRepo`, over an abstract world in which the target
directory either exists or not and git exits with `gitExitCode` (`execa`
rejects on a non-zero exit, and the `catch` block calls `process.exit(1)`):

* directory exists and `force` is false: log and return, no action;
* directory exists and `force` is true: `rmSync` it recursively, then clone;
* clone succeeds: the directory now exists;
* clone fails: `process.exit(1)`. -/
def cloneRepo (o : CloneOptions) (dirExists : Bool) (gitExitCode : Nat) :
    CloneOutcome :=
  let dir := resolvedDir o
  if dirExists && !o.force then
    { dirExists := true, trace := [], result := .ok }
  else
    let pre : List SetupAction :=
      if dirExists then [.removeDirRecursive dir] else []
    if gitExitCode = 0 then
      { dirExists := true,
        trace := pre ++ [.execGitClone (cloneArgs o.branch o.repoUrl dir)],
        result := .ok }
    else
      { dirExists := false,
        trace := pre ++ [.execGitClone (cloneArgs o.branch o.repoUrl dir)],
        result := .processExit 1 }

/-- Embedding of `installDependencies`: run `pnpm install` in `dir`; a
non-zero exit makes the script call `process.exit(1)`. -/
def installDependencies (dir : String) (exitCode : Nat) :
    List SetupAction × StepResult :=
  ([.execPnpm ["install"] dir], if exitCode = 0 then .ok else .processExit 1)

/-- Embedding of `buildProject`: run `pnpm build` in `dir`; a non-zero exit
makes the script call `process.exit(1)`. -/
def buildProject (dir : String) (exitCode : Nat) :
    List SetupAction × StepResult :=
  ([.execPnpm ["build"] dir], if exitCode = 0 then .ok else .processExit 1)

def isGitCloneExec : SetupAction → Bool
  | .execGitClone _ => true
  | _ => false

/-- Number of actual git clone invocations in a trace. -/
def countCloneInvocations (tr : List SetupAction) : Nat :=
  tr.countP isGitCloneExec

/-- The concrete options `main` passes to `cloneRepo`. -/
def mainCloneOptions : CloneOptions :=
  ⟨"https://github.com/thaitype/kubricate.git", "main",
   some ".vitepress/cache/kubricate", false⟩

end SetupRepo

namespace KubricateDocs

/-! ## Helper lemmas -/

/-- The Bool-valued `includes` embedding agrees with list infixhood. -/
theorem listIncludes_iff (sub l : List Char) : listIncludes sub l = true ↔ sub <:+: l := by
  induction l with
  | nil =>
    simp [listIncludes, List.isEmpty_iff]
  | cons c cs ih =>
    simp [listIncludes, List.isPrefixOf_iff_prefix, ih, List.infix_cons_iff]

/-- Trimming returns a contiguous part of the original list. -/
theorem jsTrim_isInfix (l : List Char) : jsTrim l <:+: l := by
  have h₁ : l.dropWhile jsWhitespace <:+ l := List.dropWhile_suffix _
  have h₂ : jsTrim l <+: l.dropWhile jsWhitespace := by
    rw [← List.reverse_suffix, jsTrim, List.reverse_reverse]
    exact List.dropWhile_suffix _
  exact List.infix_iff_prefix_suffix.mpr ⟨_, h₂, h₁⟩

/-- If some element of a list fails the predicate, `dropWhile` keeps a
nonempty tail. -/
theorem dropWhile_ne_nil_of_mem {p : Char → Bool} {l : List Char} {c : Char}
    (hc : c ∈ l) (hpc : p c = false) : l.dropWhile p ≠ [] := by
  induction l with
  | nil => cases hc
  | cons x xs ih =>
    rw [List.dropWhile_cons]
    rcases List.mem_cons.mp hc with rfl | hmem
    · rw [hpc]; simp
    · by_cases hx : p x
      · simpa [hx] using ih hmem
      · simp [hx]

/-- The generated marker starts the header block built by `processTarget`,
whatever the package name, full name and description are. -/
theorem marker_isPrefixOf_content (n fn d : String) :
    GENERATED_MARKER.data <+: (processTarget n fn d).content := by
  simp only [processTarget, String.data_append, List.append_assoc]
  exact List.prefix_append _ _

/-- A replacement string without a dollar character expands to itself. -/
theorem expandRepl_eq_self (m b a : List Char) :
    ∀ repl : List Char, '$' ∉ repl → expandRepl m b a repl = repl
  | [], _ => rfl
  | c :: rest, h => by
    have h1 : ¬ c = '$' := by
      rintro rfl; exact h (List.mem_cons_self _ _)
    have h2 : '$' ∉ rest := fun hm => h (List.mem_cons_of_mem _ hm)
    rw [expandRepl.eq_def]
    simp only [if_neg h1]
    rw [expandRepl_eq_self m b a rest h2]

/-! ## Claim C1 -/

/-- Claim C1, as stated, is false on the code: for package `core` with
manifest name `@kubricate/core` and no existing index file, the refiner does
create `api/core/index.md`, but the created content does not begin with the
back-link line (the generated marker and a blank line come first), and the
heading it contains is `# @kubricate/core Documentation` — the claimed
heading `# @kubricate/core API Documentation` occurs nowhere in it. -/
theorem C1_counterexample :
    updateMarkdownHeaders corePkg.fullName.data coreTarget none =
      [FsEffect.mkdirRecursive "api/core".data,
       FsEffect.writeFile "api/core/index.md".data coreTarget.content] ∧
    "[All Packages](../index.md) / @kubricate/core".data.isPrefixOf
      coreTarget.content = false ∧
    listIncludes "# @kubricate/core API Documentation".data
      coreTarget.content = false := by
  refine ⟨by decide, by decide, by decide⟩

/-- Claim C1 amended: for the package `core` with manifest name
`@kubricate/core`, when `api/core/index.md` does not exist, the refiner
creates that file (after creating its directory) and its first lines are the
generated marker `<!-- @generated -->`, a blank line, the back-link line
`[All Packages](../index.md) / @kubricate/core`, a blank line, the heading
`# @kubricate/core Documentation` (without `API`), a blank line, then the
static description text. -/
theorem C1_amended :
    updateMarkdownHeaders corePkg.fullName.data coreTarget none =
      [FsEffect.mkdirRecursive "api/core".data,
       FsEffect.writeFile "api/core/index.md".data
         ("<!-- @generated -->\n\n[All Packages](../index.md) / @kubricate/core\n\n# @kubricate/core Documentation\n\nCore framework for creating and managing stacks\n\n").data] := by
  decide

end KubricateDocs

namespace SetupRepo

/-! ## Claim C5 -/

/-- Claim C5: for each of the three subprocess steps — clone (here from a
world where the target directory is absent, so the clone is attempted),
install, build — a non-zero subprocess exit makes the script call
`process.exit(1)`, a non-zero exit of the whole process; the subprocess is
invoked exactly once, with no retry and no recovery. -/
theorem C5_theorem (o : CloneOptions) (dir : String) (e₁ e₂ e₃ : Nat)
    (h₁ : e₁ ≠ 0) (h₂ : e₂ ≠ 0) (h₃ : e₃ ≠ 0) :
    (cloneRepo o false e₁).result = .processExit 1 ∧
    countCloneInvocations (cloneRepo o false e₁).trace = 1 ∧
    installDependencies dir e₂ =
      ([.execPnpm ["install"] dir], .processExit 1) ∧
    buildProject dir e₃ =
      ([.execPnpm ["build"] dir], .processExit 1) := by
  refine ⟨?_, ?_, ?_, ?_⟩
  · simp [cloneRepo, h₁]
  · simp [cloneRepo, h₁, countCloneInvocations, List.countP_cons, isGitCloneExec]
  · simp [installDependencies, h₂]
  · simp [buildProject, h₃]

/-- Witness for C5 at the concrete options of `main` and exit code 1. -/
theorem C5_witness :
    (1 : Nat) ≠ 0 ∧
    ((cloneRepo mainCloneOptions false 1).result = .processExit 1 ∧
     countCloneInvocations (cloneRepo mainCloneOptions false 1).trace = 1 ∧
     installDependencies ".vitepress/cache/kubricate" 1 =
       ([.execPnpm ["install"] ".vitepress/cache/kubricate"], .processExit 1) ∧
     buildProject ".vitepress/cache/kubricate" 1 =
       ([.execPnpm ["build"] ".vitepress/cache/kubricate"], .processExit 1)) :=
  ⟨by decide,
   C5_theorem mainCloneOptions ".vitepress/cache/kubricate" 1 1 1
     (by decide) (by decide) (by decide)⟩

/-! ## Claim C6 -/

/-- Claim C6: with `force` false, if the target directory already exists,
`cloneRepo` returns with no action at all (no clone invocation, no removal,
directory state unchanged); consequently two successive calls with `force`
false starting from an absent directory (the first clone succeeding) perform
exactly one actual clone invocation — the second call is a no-op. -/
theorem C6_theorem (o : CloneOptions) (hforce : o.force = false) (e : Nat) :
    cloneRepo o true e = ⟨true, [], .ok⟩ ∧
    countCloneInvocations
      ((cloneRepo o false 0).trace ++
        (cloneRepo o (cloneRepo o false 0).dirExists 0).trace) = 1 := by
  constructor
  · simp [cloneRepo, hforce]
  · simp [cloneRepo, hforce, countCloneInvocations, List.countP_cons,
      isGitCloneExec]

/-- Witness for C6 at the concrete options of `main`. -/
theorem C6_witness :
    mainCloneOptions.force = false ∧
    (cloneRepo mainCloneOptions true 7 = ⟨true, [], .ok⟩ ∧
     countCloneInvocations
       ((cloneRepo mainCloneOptions false 0).trace ++
         (cloneRepo mainCloneOptions
           (cloneRepo mainCloneOptions false 0).dirExists 0).trace) = 1) :=
  ⟨by decide, C6_theorem mainCloneOptions (by decide) 7⟩

/-! ## Claim C7 -/

/-- Claim C7, as stated, is false on the code: with `force` true and a
pre-existing target directory, `cloneRepo` does remove the directory and
then clone, but the clone invocation carries no `--depth` argument — it is a
single-branch clone of the full history, not a shallow clone. -/
theorem C7_counterexample :
    (cloneRepo
        ⟨"https://github.com/thaitype/kubricate.git", "main",
         some ".vitepress/cache/kubricate", true⟩ true 0).trace =
      [SetupAction.removeDirRecursive ".vitepress/cache/kubricate",
       SetupAction.execGitClone
         ["clone", "--branch", "main", "--single-branch",
          "https://github.com/thaitype/kubricate.git",
          ".vitepress/cache/kubricate"]] ∧
    (["clone", "--branch", "main", "--single-branch",
      "https://github.com/thaitype/kubricate.git",
      ".vitepress/cache/kubricate"].contains "--depth") = false := by
  refine ⟨by decide, by decide⟩

/-- Claim C7 amended: when `cloneRepo` is called with `force` true, any
pre-existing target directory is recursively deleted before cloning, and
whenever `cloneRepo` proceeds to clone (directory absent, or removed by
force) it runs `git clone --branch <branch> --single-branch <repoUrl> <dir>`
— a single-branch (but not shallow: no `--depth` flag) clone of the
specified branch. -/
theorem C7_theorem (o : CloneOptions) (hforce : o.force = true) (e : Nat) :
    (cloneRepo o true e).trace =
      [SetupAction.removeDirRecursive (resolvedDir o),
       SetupAction.execGitClone (cloneArgs o.branch o.repoUrl (resolvedDir o))] ∧
    (cloneRepo o false e).trace =
      [SetupAction.execGitClone (cloneArgs o.branch o.repoUrl (resolvedDir o))] ∧
    cloneArgs o.branch o.repoUrl (resolvedDir o) =
      ["clone", "--branch", o.branch, "--single-branch", o.repoUrl,
       resolvedDir o] := by
  refine ⟨?_, ?_, rfl⟩
  · by_cases hg : e = 0 <;> simp [cloneRepo, hforce, hg]
  · by_cases hg : e = 0 <;> simp [cloneRepo, hforce, hg]

/-- Witness for C7 at the concrete options of `main` with `force` on. -/
theorem C7_witness :
    (⟨"https://github.com/thaitype/kubricate.git", "main",
      some ".vitepress/cache/kubricate", true⟩ : CloneOptions).force = true ∧
    ((cloneRepo
        ⟨"https://github.com/thaitype/kubricate.git", "main",
         some ".vitepress/cache/kubricate", true⟩ true 3).trace =
      [SetupAction.removeDirRecursive
         (resolvedDir ⟨"https://github.com/thaitype/kubricate.git", "main",
            some ".vitepress/cache/kubricate", true⟩),
       SetupAction.execGitClone
         (cloneArgs "main" "https://github.com/thaitype/kubricate.git"
           (resolvedDir ⟨"https://github.com/thaitype/kubricate.git", "main",
              some ".vitepress/cache/kubricate", true⟩))] ∧
     (cloneRepo
        ⟨"https://github.com/thaitype/kubricate.git", "main",
         some ".vitepress/cache/kubricate", true⟩ false 3).trace =
      [SetupAction.execGitClone
         (cloneArgs "main" "https://github.com/thaitype/kubricate.git"
           (resolvedDir ⟨"https://github.com/thaitype/kubricate.git", "main",
              some ".vitepress/cache/kubricate", true⟩))] ∧
     cloneArgs "main" "https://github.com/thaitype/kubricate.git"
       (resolvedDir ⟨"https://github.com/thaitype/kubricate.git", "main",
          some ".vitepress/cache/kubricate", true⟩) =
      ["clone", "--branch", "main", "--single-branch",
       "https://github.com/thaitype/kubricate.git",
       resolvedDir ⟨"https://github.com/thaitype/kubricate.git", "main",
          some ".vitepress/cache/kubricate", true⟩]) :=
  ⟨by decide,
   C7_theorem
     ⟨"https://github.com/thaitype/kubricate.git", "main",
      some ".vitepress/cache/kubricate", true⟩ (by decide) 3⟩

end SetupRepo

namespace KubricateDocs

/-! ## Claim C10 -/

/-- Claim C10: when the parsed options carry the `--clean` flag, the effect
trace of `main` consists exactly of one recursive directory removal of
`api/<name>` per package, in list order, and nothing else — in particular no
header update and no mock sidebar write happens even when `--mock` was also
passed. -/
theorem C10_theorem (argv : List String) (resolved : List ResolvedPackage)
    (fsys : ResolvedPackage → Option (List Char))
    (hclean : (parseArguments argv).clean = true) :
    mainRun (parseArguments argv) resolved fsys =
      resolved.map (fun p => FsEffect.removeDirRecursive ("api/" ++ p.name).data) := by
  simp [mainRun, hclean, resolveTarget, processTarget]

/-- Witness for C10: `--clean` together with `--mock` on one package. -/
theorem C10_witness :
    (parseArguments cleanArgv).clean = true ∧
    mainRun (parseArguments cleanArgv) [corePkg] noFiles =
      [corePkg].map (fun p => FsEffect.removeDirRecursive ("api/" ++ p.name).data) :=
  ⟨by decide, C10_theorem cleanArgv [corePkg] noFiles (by decide)⟩

end KubricateDocs

namespace KubricateDocs

/-! ## Claim C2 -/

/-- Claim C2: for every package in the static list (and any manifest), when
the index file `api/<name>/index.md` does not exist, `updateMarkdownHeaders`
first creates the parent directory `api/<name>` recursively and then writes
exactly one file, whose content is the header block verbatim; the block is
tagged with the generated marker `<!-- @generated -->` as its prefix. -/
theorem C2_theorem (pkg : PackageDecl) (h : pkg ∈ packageInfo) (m : Manifest) :
    updateMarkdownHeaders (getPackageInfo pkg m).fullName.data
        (resolveTarget (getPackageInfo pkg m)) none =
      [FsEffect.mkdirRecursive ("api/" ++ pkg.name).data,
       FsEffect.writeFile ("api/" ++ pkg.name ++ "/index.md").data
         (resolveTarget (getPackageInfo pkg m)).content] ∧
    GENERATED_MARKER.data.isPrefixOf
      (resolveTarget (getPackageInfo pkg m)).content = true := by
  have hpath : indexFilePath (resolveTarget (getPackageInfo pkg m)) =
      ("api/" ++ pkg.name ++ "/index.md").data := by
    simp [indexFilePath, resolveTarget, processTarget, getPackageInfo,
      String.data_append, List.append_assoc]
  have hdir : dirname (("api/" ++ pkg.name ++ "/index.md").data) =
      ("api/" ++ pkg.name).data := by
    fin_cases h <;> decide
  constructor
  · rw [show updateMarkdownHeaders (getPackageInfo pkg m).fullName.data
          (resolveTarget (getPackageInfo pkg m)) none =
        [FsEffect.mkdirRecursive
           (dirname (indexFilePath (resolveTarget (getPackageInfo pkg m)))),
         FsEffect.writeFile (indexFilePath (resolveTarget (getPackageInfo pkg m)))
           (resolveTarget (getPackageInfo pkg m)).content] from rfl,
      hpath, hdir]
  · exact List.isPrefixOf_iff_prefix.mpr (marker_isPrefixOf_content _ _ _)

/-- Witness for C2: the `core` package with the manifest of the scenario in
the specification. -/
theorem C2_witness :
    (⟨"core", "Core framework for creating and managing stacks"⟩ : PackageDecl)
      ∈ packageInfo ∧
    (updateMarkdownHeaders
        (getPackageInfo
          ⟨"core", "Core framework for creating and managing stacks"⟩
          ⟨"@kubricate/core", "1.2.0"⟩).fullName.data
        (resolveTarget
          (getPackageInfo
            ⟨"core", "Core framework for creating and managing stacks"⟩
            ⟨"@kubricate/core", "1.2.0"⟩)) none =
      [FsEffect.mkdirRecursive ("api/" ++ "core").data,
       FsEffect.writeFile ("api/" ++ "core" ++ "/index.md").data
         (resolveTarget
           (getPackageInfo
             ⟨"core", "Core framework for creating and managing stacks"⟩
             ⟨"@kubricate/core", "1.2.0"⟩)).content] ∧
     GENERATED_MARKER.data.isPrefixOf
       (resolveTarget
         (getPackageInfo
           ⟨"core", "Core framework for creating and managing stacks"⟩
           ⟨"@kubricate/core", "1.2.0"⟩)).content = true) :=
  ⟨by decide,
   C2_theorem ⟨"core", "Core framework for creating and managing stacks"⟩
     (by decide) ⟨"@kubricate/core", "1.2.0"⟩⟩

/-! ## Claim C9 -/

/-- Claim C9: when an existing index file contains neither the generated
marker together with the exact trimmed block (the skip check fails) nor any
match of the heading regex for the full package name, `updateMarkdownHeaders`
still performs a write, and the written bytes are identical to what was read
— no header block is inserted and no error is raised. -/
theorem C9_theorem (p : ResolvedPackage) (content : List Char)
    (hskip : (listIncludes GENERATED_MARKER.data content &&
      listIncludes (jsTrim (resolveTarget p).content) content) = false)
    (hmatch : findMatch p.fullName.data content = none) :
    updateMarkdownHeaders p.fullName.data (resolveTarget p) (some content) =
      [FsEffect.writeFile (indexFilePath (resolveTarget p)) content] ∧
    fileAfterUpdate p.fullName.data (resolveTarget p) (some content) =
      some content := by
  constructor <;>
    simp [updateMarkdownHeaders, fileAfterUpdate, hskip, jsReplace, hmatch]

/-- Witness for C9: the `core` package over an existing file `hello`
followed by a newline. -/
theorem C9_witness :
    ((listIncludes GENERATED_MARKER.data "hello\n".data &&
       listIncludes (jsTrim (resolveTarget corePkg).content) "hello\n".data)
      = false) ∧
    findMatch corePkg.fullName.data "hello\n".data = none ∧
    (updateMarkdownHeaders corePkg.fullName.data (resolveTarget corePkg)
        (some "hello\n".data) =
      [FsEffect.writeFile (indexFilePath (resolveTarget corePkg))
        "hello\n".data] ∧
     fileAfterUpdate corePkg.fullName.data (resolveTarget corePkg)
        (some "hello\n".data) = some "hello\n".data) :=
  ⟨by decide, by decide,
   C9_theorem corePkg "hello\n".data (by decide) (by decide)⟩

/-! ## Claim C8 -/

/-- Claim C8: a filesystem error while processing a package is rethrown as
`Failed to process api/<name>/index.md: <original error>` — a message
carrying the package name and path — and it aborts the sequential batch: the
packages processed are exactly those before the failing one, and no package
after it is reached. -/
theorem C8_theorem (as bs : List ResolvedPackage) (p : ResolvedPackage)
    (msg : String) (fsys : ResolvedPackage → FsOutcome)
    (hok : ∀ a ∈ as, ∃ f, fsys a = FsOutcome.ok f)
    (hp : fsys p = FsOutcome.err msg) :
    (runBatch fsys (as ++ p :: bs)).2 =
      some ("Failed to process " ++
        String.mk (indexFilePath (resolveTarget p)) ++ ": " ++ msg) ∧
    (runBatch fsys (as ++ p :: bs)).1.map Prod.fst =
      as.map ResolvedPackage.name := by
  induction as with
  | nil =>
    simp [runBatch, updateMarkdownHeadersE, hp]
  | cons a as' ih =>
    obtain ⟨f, hf⟩ := hok a (List.mem_cons_self _ _)
    have ih' := ih (fun x hx => hok x (List.mem_cons_of_mem _ hx))
    simp [runBatch, updateMarkdownHeadersE, hf, ih'.1, ih'.2]

/-- Witness for C8: `core` succeeds, `kubricate` fails with a permission
error, `stacks` is never reached. -/
theorem C8_witness :
    (runBatch failingFsys ([corePkg] ++ kubricatePkg :: [stacksPkg])).2 =
      some ("Failed to process " ++
        String.mk (indexFilePath (resolveTarget kubricatePkg)) ++ ": " ++
        "EACCES: permission denied") ∧
    (runBatch failingFsys ([corePkg] ++ kubricatePkg :: [stacksPkg])).1.map
        Prod.fst = [corePkg].map ResolvedPackage.name :=
  C8_theorem [corePkg] [stacksPkg] kubricatePkg "EACCES: permission denied"
    failingFsys
    (by intro a ha; fin_cases ha; exact ⟨none, by decide⟩)
    (by decide)

end KubricateDocs

namespace KubricateDocs

set_option maxRecDepth 8192

/-! ## Claim C3 -/

/-- Claim C3, as stated, is false on the code: the regex substitution is not
scoped to the heading line.  On an existing `api/core/index.md` holding the
heading line `# @kubricate/core` followed by a blank line and trailing text,
the trailing `\s*` of the regex consumes the blank line as well, so the two
newline bytes between the heading line and `Trailing text` — bytes outside
the heading line — are not preserved: the updated file glues the trimmed
header block directly onto `Trailing text`, and no occurrence of
newline-newline-`Trailing text` remains. -/
theorem C3_counterexample :
    updateMarkdownHeaders corePkg.fullName.data coreTarget
        (some "# @kubricate/core\n\nTrailing text\n".data) =
      [FsEffect.writeFile "api/core/index.md".data
        (jsTrim coreTarget.content ++ "Trailing text\n".data)] ∧
    listIncludes "\n\nTrailing text".data
        (jsTrim coreTarget.content ++ "Trailing text\n".data) = false := by
  refine ⟨by decide, by decide⟩

/-- Claim C3 amended: on the update path, `updateMarkdownHeaders` performs a
single regex substitution: the first match of `^#\s+<escaped full name>\s*`
(which starts at a line start with `#` and the name, but whose trailing
whitespace may extend past the end of the heading line onto following blank
lines, and which may cover only a prefix of the heading line) is replaced by
the trimmed header block, and every byte before and after the matched region
is preserved unchanged. -/
theorem C3_theorem (fullName repl content : List Char) (pos len : Nat)
    (hm : findMatch fullName content = some (pos, len))
    (hrepl : '$' ∉ repl) :
    content =
      content.take pos ++ (content.drop pos).take len ++
        content.drop (pos + len) ∧
    jsReplace fullName repl content =
      content.take pos ++ repl ++ content.drop (pos + len) := by
  constructor
  · rw [List.append_assoc, ← List.drop_drop, List.take_append_drop,
      List.take_append_drop]
  · simp only [jsReplace, hm]
    rw [expandRepl_eq_self _ _ _ _ hrepl]

/-- Witness for C3 on the heading-plus-blank-line file. -/
theorem C3_witness :
    findMatch "@kubricate/core".data
      "# @kubricate/core\n\nTrailing text\n".data = some (0, 19) ∧
    '$' ∉ "XY".data ∧
    ("# @kubricate/core\n\nTrailing text\n".data =
      "# @kubricate/core\n\nTrailing text\n".data.take 0 ++
        ("# @kubricate/core\n\nTrailing text\n".data.drop 0).take 19 ++
        "# @kubricate/core\n\nTrailing text\n".data.drop (0 + 19) ∧
     jsReplace "@kubricate/core".data "XY".data
        "# @kubricate/core\n\nTrailing text\n".data =
      "# @kubricate/core\n\nTrailing text\n".data.take 0 ++ "XY".data ++
        "# @kubricate/core\n\nTrailing text\n".data.drop (0 + 19)) :=
  ⟨by decide, by decide,
   C3_theorem "@kubricate/core".data "XY".data
     "# @kubricate/core\n\nTrailing text\n".data 0 19 (by decide) (by decide)⟩

end KubricateDocs

namespace KubricateDocs

/-! ## Claim C4 -/

/-- Every character of the header block is one of the fixed literal segments
or a character of the full name or description. -/
theorem mem_content_cases (p : ResolvedPackage) (c : Char)
    (hc : c ∈ (resolveTarget p).content) :
    c ∈ GENERATED_MARKER.data ∨ c ∈ "\n\n".data ∨
      c ∈ "[All Packages](../index.md) / ".data ∨ c ∈ p.fullName.data ∨
      c ∈ "# ".data ∨ c ∈ " Documentation".data ∨ c ∈ p.description.data := by
  simp only [resolveTarget, processTarget, String.data_append,
    List.mem_append] at hc
  tauto

/-- The header block contains no dollar character when neither the full name
nor the description does. -/
theorem dollar_not_mem_content (p : ResolvedPackage)
    (hfn : '$' ∉ p.fullName.data) (hd : '$' ∉ p.description.data) :
    '$' ∉ (resolveTarget p).content := by
  intro hm
  rcases mem_content_cases p '$' hm with h | h | h | h | h | h | h
  · exact absurd h (by decide)
  · exact absurd h (by decide)
  · exact absurd h (by decide)
  · exact hfn h
  · exact absurd h (by decide)
  · exact absurd h (by decide)
  · exact hd h

/-- Trimming the header block keeps the generated marker as its prefix: the
block starts with the non-whitespace `<` of the marker, and the right trim
stops no later than the `[` of the back-link line, which sits after the
marker. -/
theorem marker_isPrefixOf_trimmed (n fn d : String) :
    GENERATED_MARKER.data <+: jsTrim (processTarget n fn d).content := by
  obtain ⟨R, hcontent, hmem⟩ :
      ∃ R, (processTarget n fn d).content = GENERATED_MARKER.data ++ R ∧
        '[' ∈ R := by
    refine ⟨"\n\n".data ++ ("[All Packages](../index.md) / ".data ++
      (fn.data ++ ("\n\n".data ++ ("# ".data ++ (fn.data ++
        (" Documentation".data ++ ("\n\n".data ++ (d.data ++
          "\n\n".data)))))))), ?_, ?_⟩
    · simp [processTarget, String.data_append, List.append_assoc]
    · exact List.mem_append.mpr (Or.inr (List.mem_append.mpr (Or.inl (by decide))))
  have hmarker : GENERATED_MARKER.data = '<' :: "!-- @generated -->".data := by
    decide
  have hlt : jsWhitespace '<' = false := by decide
  have hleft : (GENERATED_MARKER.data ++ R).dropWhile jsWhitespace =
      GENERATED_MARKER.data ++ R := by
    rw [hmarker, List.cons_append, List.dropWhile_cons]
    simp [hlt]
  have hne : R.reverse.dropWhile jsWhitespace ≠ [] :=
    dropWhile_ne_nil_of_mem (List.mem_reverse.mpr hmem) (by decide)
  have hright : (GENERATED_MARKER.data ++ R).reverse.dropWhile jsWhitespace =
      R.reverse.dropWhile jsWhitespace ++ GENERATED_MARKER.data.reverse := by
    rw [List.reverse_append, List.dropWhile_append]
    simp [List.isEmpty_iff, hne]
  rw [hcontent, jsTrim, hleft, hright, List.reverse_append,
    List.reverse_reverse]
  exact List.prefix_append _ _

set_option maxHeartbeats 2000000

/-- Claim C4 amended: running `updateMarkdownHeaders` a second time on the
file state left by a first run changes no file content; every file state
containing the generated marker together with the exact trimmed header block
gets no write at all; and the file state left by the first run is such a
state whenever the first run created the file, found it already up to date,
or patched it via a regex match — so in all those cases the second run
performs no write.  The only remaining case — a file matching neither the
marker-plus-content check nor the heading regex — is rewritten on the second
run with exactly the same identical bytes as on the first.  (The
dollar-freeness hypotheses mirror npm package names and the static
descriptions, neither of which may carry replacement-pattern characters.) -/
theorem C4_theorem (p : ResolvedPackage) (file : Option (List Char))
    (hfn : '$' ∉ p.fullName.data) (hd : '$' ∉ p.description.data) :
    fileAfterUpdate p.fullName.data (resolveTarget p)
        (fileAfterUpdate p.fullName.data (resolveTarget p) file) =
      fileAfterUpdate p.fullName.data (resolveTarget p) file ∧
    (∀ s : List Char,
      (listIncludes GENERATED_MARKER.data s &&
        listIncludes (jsTrim (resolveTarget p).content) s) = true →
      updateMarkdownHeaders p.fullName.data (resolveTarget p) (some s) = []) ∧
    (file = none →
      updateMarkdownHeaders p.fullName.data (resolveTarget p)
        (fileAfterUpdate p.fullName.data (resolveTarget p) file) = []) ∧
    (∀ c, file = some c →
      (listIncludes GENERATED_MARKER.data c &&
        listIncludes (jsTrim (resolveTarget p).content) c) = true →
      updateMarkdownHeaders p.fullName.data (resolveTarget p)
        (fileAfterUpdate p.fullName.data (resolveTarget p) file) = []) ∧
    (∀ c pr, file = some c → findMatch p.fullName.data c = some pr →
      updateMarkdownHeaders p.fullName.data (resolveTarget p)
        (fileAfterUpdate p.fullName.data (resolveTarget p) file) = []) ∧
    (∀ c, file = some c →
      (listIncludes GENERATED_MARKER.data c &&
        listIncludes (jsTrim (resolveTarget p).content) c) = false →
      findMatch p.fullName.data c = none →
      updateMarkdownHeaders p.fullName.data (resolveTarget p)
        (fileAfterUpdate p.fullName.data (resolveTarget p) file) =
        [FsEffect.writeFile (indexFilePath (resolveTarget p)) c]) := by
  have hmarker_content :
      listIncludes GENERATED_MARKER.data (resolveTarget p).content = true :=
    (listIncludes_iff _ _).mpr (marker_isPrefixOf_content _ _ _).isInfix
  have htrim_content :
      listIncludes (jsTrim (resolveTarget p).content)
        (resolveTarget p).content = true :=
    (listIncludes_iff _ _).mpr (jsTrim_isInfix _)
  have hdollar_trim : '$' ∉ jsTrim (resolveTarget p).content :=
    fun hm =>
      dollar_not_mem_content p hfn hd
        ((jsTrim_isInfix (resolveTarget p).content).subset hm)
  have hmarker_trim :
      GENERATED_MARKER.data <+: jsTrim (resolveTarget p).content :=
    marker_isPrefixOf_trimmed p.name p.fullName p.description
  have hskip : ∀ s : List Char,
      (listIncludes GENERATED_MARKER.data s &&
        listIncludes (jsTrim (resolveTarget p).content) s) = true →
      updateMarkdownHeaders p.fullName.data (resolveTarget p) (some s) = [] := by
    intro s hs
    simp [updateMarkdownHeaders, hs]
  rcases file with _ | c
  · refine ⟨?_, hskip, ?_, ?_, ?_, ?_⟩
    · simp [fileAfterUpdate, hmarker_content, htrim_content]
    · intro _
      exact hskip _ (by simp [hmarker_content, htrim_content])
    · intro c h _; simp at h
    · intro c pr h _; simp at h
    · intro c h _ _; simp at h
  · by_cases hc : (listIncludes GENERATED_MARKER.data c &&
        listIncludes (jsTrim (resolveTarget p).content) c) = true
    · have hf1 : fileAfterUpdate p.fullName.data (resolveTarget p) (some c) =
          some c := by
        simp [fileAfterUpdate, hc]
      refine ⟨?_, hskip, ?_, ?_, ?_, ?_⟩
      · rw [hf1]; exact hf1
      · intro h; simp at h
      · intro c' heq _
        injection heq with h; subst h
        rw [hf1]; exact hskip c hc
      · intro c' pr heq _
        injection heq with h; subst h
        rw [hf1]; exact hskip c hc
      · intro c' heq hcheck _
        injection heq with h; subst h
        rw [hc] at hcheck; simp at hcheck
    · have hc' : (listIncludes GENERATED_MARKER.data c &&
          listIncludes (jsTrim (resolveTarget p).content) c) = false := by
        rwa [Bool.not_eq_true] at hc
      cases hfm : findMatch p.fullName.data c with
      | none =>
        have hO : jsReplace p.fullName.data
            (jsTrim (resolveTarget p).content) c = c := by
          simp [jsReplace, hfm]
        have hf1 : fileAfterUpdate p.fullName.data (resolveTarget p)
            (some c) = some c := by
          simp [fileAfterUpdate, hc', hO]
        refine ⟨?_, hskip, ?_, ?_, ?_, ?_⟩
        · rw [hf1]; exact hf1
        · intro h; simp at h
        · intro c' heq hcheck
          injection heq with h; subst h
          rw [hc'] at hcheck; simp at hcheck
        · intro c' pr heq hm
          injection heq with h; subst h
          rw [hfm] at hm; simp at hm
        · intro c' heq _ _
          injection heq with h; subst h
          rw [hf1]
          simp [updateMarkdownHeaders, hc', hO]
      | some pl =>
        obtain ⟨pos, len⟩ := pl
        have hO : jsReplace p.fullName.data
            (jsTrim (resolveTarget p).content) c =
            c.take pos ++ (jsTrim (resolveTarget p).content ++
              c.drop (pos + len)) := by
          simp only [jsReplace, hfm]
          rw [expandRepl_eq_self _ _ _ _ hdollar_trim, List.append_assoc]
        have htrimO : listIncludes (jsTrim (resolveTarget p).content)
            (c.take pos ++ (jsTrim (resolveTarget p).content ++
              c.drop (pos + len))) = true :=
          (listIncludes_iff _ _).mpr
            (by rw [← List.append_assoc]; exact List.infix_append _ _ _)
        have hmarkO : listIncludes GENERATED_MARKER.data
            (c.take pos ++ (jsTrim (resolveTarget p).content ++
              c.drop (pos + len))) = true :=
          (listIncludes_iff _ _).mpr
            (hmarker_trim.isInfix.trans
              (by rw [← List.append_assoc]; exact List.infix_append _ _ _))
        have hf1 : fileAfterUpdate p.fullName.data (resolveTarget p)
            (some c) =
            some (c.take pos ++ (jsTrim (resolveTarget p).content ++
              c.drop (pos + len))) := by
          simp [fileAfterUpdate, hc', hO]
        have hsecond : updateMarkdownHeaders p.fullName.data
            (resolveTarget p)
            (some (c.take pos ++ (jsTrim (resolveTarget p).content ++
              c.drop (pos + len)))) = [] :=
          hskip _ (by simp [hmarkO, htrimO])
        have hf2 : fileAfterUpdate p.fullName.data (resolveTarget p)
            (some (c.take pos ++ (jsTrim (resolveTarget p).content ++
              c.drop (pos + len)))) =
            some (c.take pos ++ (jsTrim (resolveTarget p).content ++
              c.drop (pos + len))) := by
          simp [fileAfterUpdate, hmarkO, htrimO]
        refine ⟨?_, hskip, ?_, ?_, ?_, ?_⟩
        · rw [hf1]; exact hf2
        · intro h; simp at h
        · intro c' heq hcheck
          injection heq with h; subst h
          rw [hc'] at hcheck; simp at hcheck
        · intro c' pr heq _
          injection heq with h; subst h
          rw [hf1]; exact hsecond
        · intro c' heq _ hm
          injection heq with h; subst h
          rw [hfm] at hm; simp at hm

/-- Claim C4, as stated, is false on the code: on a file `hello` (plus
newline) for package `core`, the first run leaves the content unchanged
(neither the marker check nor the heading regex applies), so the second run
— facing exactly the state the first run left — performs a write again
instead of no write. -/
theorem C4_counterexample :
    fileAfterUpdate corePkg.fullName.data coreTarget (some "hello\n".data) =
      some "hello\n".data ∧
    updateMarkdownHeaders corePkg.fullName.data coreTarget
        (fileAfterUpdate corePkg.fullName.data coreTarget
          (some "hello\n".data)) =
      [FsEffect.writeFile "api/core/index.md".data "hello\n".data] := by
  refine ⟨by decide, by decide⟩

/-- Witness for C4 on the `core` package over a file the first run patches
via a regex match (`# @kubricate/core` followed by a blank line and trailing
text): after the patch, the second run changes nothing and performs no
write. -/
theorem C4_witness :
    '$' ∉ corePkg.fullName.data ∧ '$' ∉ corePkg.description.data ∧
    findMatch corePkg.fullName.data
      "# @kubricate/core\n\nTrailing text\n".data = some (0, 19) ∧
    fileAfterUpdate corePkg.fullName.data (resolveTarget corePkg)
        (fileAfterUpdate corePkg.fullName.data (resolveTarget corePkg)
          (some "# @kubricate/core\n\nTrailing text\n".data)) =
      fileAfterUpdate corePkg.fullName.data (resolveTarget corePkg)
        (some "# @kubricate/core\n\nTrailing text\n".data) ∧
    updateMarkdownHeaders corePkg.fullName.data (resolveTarget corePkg)
        (fileAfterUpdate corePkg.fullName.data (resolveTarget corePkg)
          (some "# @kubricate/core\n\nTrailing text\n".data)) = [] :=
  ⟨by decide, by decide, by decide,
   (C4_theorem corePkg (some "# @kubricate/core\n\nTrailing text\n".data)
     (by decide) (by decide)).1,
   (C4_theorem corePkg (some "# @kubricate/core\n\nTrailing text\n".data)
     (by decide) (by decide)).2.2.2.2.1
     "# @kubricate/core\n\nTrailing text\n".data (0, 19) rfl (by decide)⟩

end KubricateDocs
